import Mathlib

/-!
Verification of the provider-agnostic streaming chat pipeline of the
ollama-chat-app repository.  The embedded code is the multi-provider express
server contained in backend/cors-config.js (the /api/chat route, the three
provider handlers, getProviderFromModel and formatPrompt).  The persona
collaborator (aiyu-personality.js) is not part of the sources, so its two
hooks are modelled from the specification, as marked on their definitions.

Conventions of the embedding:
* JavaScript strings become Lean String, with helper functions over the
  underlying character list mirroring startsWith, endsWith, includes,
  substring, split, trim and the truthiness of strings (empty = falsy).
* JSON.parse of a backend stream line is external input; a line is embedded
  as the outcome of that parse (a constructor for a parse failure, and a
  constructor carrying the fields the handler reads).
* The express response object is a small state machine: a frame list plus a
  closed flag.  res.write after res.end sends nothing on the wire (Node
  raises a write-after-end error instead of emitting), so write on a closed
  response is embedded as a no-op, and res.end sets the flag.
* External calls (axios.post, generateContent, the knowledge loader, the
  pdf-parse library, Math.random) are inputs: an Except value for a call
  that can throw, a Bool for each of the two persona random draws.
-/

namespace ChatRelay

/-! ### JavaScript string primitives -/

/-- JavaScript `a || b` on strings: the empty string is falsy. -/
def jsOr (a b : String) : String :=
  if a = "" then b else a

/-- JavaScript String.prototype.startsWith, over the character list. -/
def strStartsWith (s pre : String) : Bool :=
  pre.data.isPrefixOf s.data

/-- JavaScript String.prototype.endsWith, over the character list. -/
def strEndsWith (s suf : String) : Bool :=
  suf.data.isSuffixOf s.data

/-- JavaScript s.substring(0, n): the first n characters. -/
def strTake (s : String) (n : Nat) : String :=
  String.mk (s.data.take n)

/-- Auxiliary for splitting a character list at a separator character. -/
def splitCharAux (sep : Char) : List Char → List Char → List (List Char)
  | [], acc => [acc.reverse]
  | c :: rest, acc =>
    if c = sep then acc.reverse :: splitCharAux sep rest []
    else splitCharAux sep rest (c :: acc)

/-- JavaScript s.split(sep) for a one-character separator. -/
def splitChar (sep : Char) (s : String) : List String :=
  (splitCharAux sep s.data []).map String.mk

/-- JavaScript `file.data.split(chr(44))[1]`, with undefined embedded as the
empty (falsy) string; chr(44) is the comma. -/
def base64Part (data : String) : String :=
  (splitChar (Char.ofNat 0x2C) data).getD 1 ""

/-- Auxiliary scan for substring containment. -/
def containsAux (sub : List Char) : List Char → Bool
  | [] => sub.isPrefixOf []
  | c :: rest => sub.isPrefixOf (c :: rest) || containsAux sub rest

/-- JavaScript String.prototype.includes. -/
def jsIncludes (s sub : String) : Bool :=
  containsAux sub.data s.data

/-- The character class matched by the JavaScript regular expression
whitespace class (the characters JavaScript trim also removes). -/
def isJsWs (c : Char) : Bool :=
  c.toNat = 0x09 || c.toNat = 0x0A || c.toNat = 0x0B || c.toNat = 0x0C ||
  c.toNat = 0x0D || c.toNat = 0x20 || c.toNat = 0xA0 || c.toNat = 0x1680 ||
  (0x2000 ≤ c.toNat && c.toNat ≤ 0x200A) || c.toNat = 0x2028 ||
  c.toNat = 0x2029 || c.toNat = 0x202F || c.toNat = 0x205F ||
  c.toNat = 0x3000 || c.toNat = 0xFEFF

/-- JavaScript String.prototype.trim. -/
def jsTrim (s : String) : String :=
  String.mk (((s.data.dropWhile isJsWs).reverse.dropWhile isJsWs).reverse)

/-- The control characters removed by the pdf sanitization step: the ranges
00-08, 0B, 0C, 0E-1F and 7F (tab, newline and carriage return survive). -/
def isStrippedCtrl (c : Char) : Bool :=
  c.toNat ≤ 0x08 || c.toNat = 0x0B || c.toNat = 0x0C ||
  (0x0E ≤ c.toNat && c.toNat ≤ 0x1F) || c.toNat = 0x7F

/-- Remove the stripped control characters from a string. -/
def stripCtrl (s : String) : String :=
  String.mk (s.data.filter (fun c => !isStrippedCtrl c))

/-- Collapse every run of whitespace to one space; the flag records whether
the previous character was whitespace. -/
def collapseWsAux : Bool → List Char → List Char
  | _, [] => []
  | prevWs, c :: rest =>
    if isJsWs c then
      if prevWs then collapseWsAux true rest
      else Char.ofNat 0x20 :: collapseWsAux true rest
    else c :: collapseWsAux false rest

/-- JavaScript replace of every whitespace run by a single space. -/
def collapseWs (s : String) : String :=
  String.mk (collapseWsAux false s.data)

/-- The sanitization applied to extracted pdf text: strip control
characters, collapse whitespace runs, trim. -/
def sanitizePdf (t : String) : String :=
  jsTrim (collapseWs (stripCtrl t))

/-- Concatenation of the rendering of every list element. -/
def concatMap (g : α → String) : List α → String
  | [] => ""
  | a :: l => g a ++ concatMap g l

/-- JavaScript array.slice(-n): the last n elements (the whole array when it
is shorter than n). -/
def jsSliceNeg (n : Nat) (l : List α) : List α :=
  l.drop (l.length - n)

/-! ### The outgoing event stream (the express response object) -/

/-- One outgoing event frame of the /api/chat stream: a content delta, the
done marker, or an error marker. -/
inductive Frame where
  | content (s : String)
  | done
  | error (msg : String)
deriving DecidableEq

/-- A terminal frame is a done or an error marker. -/
def Frame.isTerminal : Frame → Bool
  | .content _ => false
  | .done => true
  | .error _ => true

/-- Number of terminal frames in an outgoing sequence. -/
def terminalCount (l : List Frame) : Nat :=
  (l.filter Frame.isTerminal).length

/-- No frame of the list is terminal. -/
def noTerminal (l : List Frame) : Bool :=
  l.all (fun f => !f.isTerminal)

/-- Every frame except possibly the last one is non-terminal: a terminal
frame can only sit at the very end of the outgoing sequence. -/
def terminalOnlyLast (l : List Frame) : Bool :=
  noTerminal l.dropLast

/-- The express response: the frames written so far and whether res.end has
been called.  res.write on an ended response emits nothing on the wire. -/
structure Res where
  frames : List Frame
  ended : Bool
deriving DecidableEq

/-- The response at the start of a turn. -/
def Res.init : Res := ⟨[], false⟩

/-- res.write of one frame; a no-op once the response has ended. -/
def Res.write (r : Res) (f : Frame) : Res :=
  if r.ended then r else ⟨r.frames ++ [f], r.ended⟩

/-- res.end. -/
def Res.close (r : Res) : Res :=
  ⟨r.frames, true⟩

/-- The catch block of the /api/chat route: write one error frame carrying
the thrown message, then end the response. -/
def routeCatch (e : String) : Res :=
  (Res.init.write (Frame.error e)).close

/-! ### Request data -/

/-- One history entry: a role string and its content. -/
structure Msg where
  role : String
  content : String
deriving DecidableEq

/-- The userProfile object of the request body; an absent field is the
empty (falsy) string. -/
structure UserProfile where
  name : String
  department : String
  context : String

/-- One uploaded file descriptor.  pdfResult is the outcome of the external
pdf-parse call on the decoded payload of this file: an extraction failure
message, or the extracted text (possibly empty). -/
structure FileAtt where
  name : String
  type : String
  data : String
  pdfResult : Except String String

/-! ### Persona hooks (modelled from the spec) -/

/-- The suffix tone directive of the persona preamble, as worded in the
in-repo cloudflare worker. -/
def aiyuSuffixDirective : String :=
  "- 今回は語尾に「ワン」をつけてください"

/-- The no-suffix tone directive of the persona preamble. -/
def aiyuNoSuffixDirective : String :=
  "- 今回は「ワン」は控えめに"

/-- Modelled from the spec: aiyu-personality.js is not among the sources.
The prompt-phase persona preamble is fixed except for its tone directive,
which follows the per-turn random draw (probability 0.3 of the suffix
variant); draw = true embeds a draw below 0.3. -/
def personaPreamble (draw : Bool) : String :=
  "あなたは「アイユーくん」という柴犬の精霊です。\n" ++
  (if draw then aiyuSuffixDirective else aiyuNoSuffixDirective) ++ "\n\n"

/-- Modelled from the spec: aiyuPersonality.enhancePrompt prepends the
fixed persona preamble (with the tone directive of its own random draw) to
the prompt. -/
def enhancePrompt (draw : Bool) (message : String) : String :=
  personaPreamble draw ++ message

/-- Modelled from the spec: aiyuPersonality.processResponse optionally
appends the verbal tic to the assembled assistant text, following its own
random draw (the source draws again here instead of reusing the
prompt-phase draw). -/
def processResponse (draw : Bool) (_message text : String) : String :=
  if draw then text ++ "ワン" else text

/-! ### Attachment extraction (the files loop of the /api/chat route) -/

/-- Header line of a pdf fragment, naming the file. -/
def pdfHeader (name : String) : String :=
  "\n=== PDFファイル: " ++ name ++ " ===\n"

/-- Footer line closing a file fragment. -/
def pdfFooter : String :=
  "=== ファイル終了 ===\n"

/-- The fragment body written by the pdf catch block: the failure message
followed by the fixed hint line. -/
def pdfErrorFragment (msg : String) : String :=
  "(PDFの読み込みに失敗しました: " ++ msg ++ ")\n" ++
  "ヒント: PDFが画像ベースの場合、テキスト抽出ができない場合があります。\n"

/-- The fixed fragment body for a pdf whose extraction yields no text. -/
def pdfImageOnlyHint : String :=
  "(PDFにテキストが含まれていません - 画像ベースのPDFの可能性があります)\n" ++
  "\n【ヒント】\n" ++
  "• このPDFは画像やスキャンデータのみで構成されている可能性があります\n" ++
  "• テキスト選択可能なPDFに変換してから再度お試しください\n" ++
  "• または、PDFの内容を画像として送信していただければ、Geminiモデルで読み取れる場合があります\n"

/-- The omitted-characters marker appended when the sanitized text exceeds
the 5000-character ceiling. -/
def omittedMarker (n : Nat) : String :=
  "\n... (残り " ++ toString n ++ " 文字省略) ...\n"

/-- The fragment body for sanitized, non-empty extracted pdf text s: the
character count, the first 5000 characters, and the omitted marker when the
text is longer. -/
def pdfSuccessBody (s : String) : String :=
  "内容 (" ++ toString s.length ++ "文字):\n" ++ strTake s 5000 ++ "\n" ++
  (if 5000 < s.length then omittedMarker (s.length - 5000) else "")

/-- The body of a pdf fragment: the try block of the pdf branch of the
files loop, with every throw landing in the pdfError catch. -/
def pdfTryBody (f : FileAtt) : String :=
  if strStartsWith f.data "data:" then
    if base64Part f.data = "" then
      pdfErrorFragment "Invalid PDF data format"
    else
      match f.pdfResult with
      | Except.error msg => pdfErrorFragment ("PDF解析エラー: " ++ msg)
      | Except.ok t =>
        if 0 < t.length then pdfSuccessBody (sanitizePdf t)
        else pdfImageOnlyHint
  else
    "(PDFデータ形式が不正です)\n"

/-- The fragment the files loop appends for one file, by declared type:
text-like, image, pdf, or unknown placeholder. -/
def fileFragment (f : FileAtt) : String :=
  if (f.type != "") &&
      (strStartsWith f.type "text/" || (f.type == "application/json") ||
       strEndsWith f.name ".md" || strEndsWith f.name ".txt") then
    "\n=== ファイル名: " ++ f.name ++ " ===\n" ++
    "ファイルタイプ: " ++ jsOr f.type "unknown" ++ "\n" ++
    "内容:\n" ++ f.data ++ "\n" ++ "=== ファイル終了 ===\n"
  else if (f.type != "") && strStartsWith f.type "image/" then
    "\n[画像ファイル: " ++ f.name ++ "]\n"
  else if (f.type == "application/pdf") || strEndsWith f.name ".pdf" then
    pdfHeader f.name ++ pdfTryBody f ++ pdfFooter
  else
    "\n[ファイル: " ++ f.name ++ " (タイプ: " ++ jsOr f.type "unknown" ++ ")]\n"

/-- The whole file context appended to the message when files are attached. -/
def filesContext (files : List FileAtt) : String :=
  "\n\n以下のファイルが添付されています：\n" ++ concatMap fileFragment files

/-! ### Context augmentation (the body of the /api/chat route) -/

/-- The user-profile line prepended to the enhanced message. -/
def profileLine (p : UserProfile) : String :=
  "ユーザー情報: " ++ jsOr p.name "不明" ++ ", " ++ jsOr p.department "不明" ++
  ", " ++ p.context ++ "\n\n"

/-- Prepend the profile line when the profile is present and its context
field is a non-empty, non-blank string. -/
def applyProfile (p : Option UserProfile) (enhanced : String) : String :=
  match p with
  | none => enhanced
  | some q =>
    if (q.context != "") && (jsTrim q.context != "") then
      profileLine q ++ enhanced
    else enhanced

/-- The augmentation phase of the /api/chat route: append the file context,
then the knowledge context when the flag is on (kb is what the knowledge
collaborator would do if invoked: a thrown failure, no context, or a
context string), then prepend the profile line.  A thrown knowledge failure
propagates out of the augmentation. -/
def chatAugment (message : String) (files : List FileAtt) (useKnowledge : Bool)
    (kb : Except String (Option String)) (profile : Option UserProfile) :
    Except String String :=
  let enhanced := message ++ (if files.isEmpty then "" else filesContext files)
  match (if useKnowledge then kb else Except.ok none) with
  | Except.error e => Except.error e
  | Except.ok k =>
    let enhanced := match k with
      | some kc => enhanced ++ kc
      | none => enhanced
    Except.ok (applyProfile profile enhanced)

/-! ### Provider routing -/

/-- getProviderFromModel of cors-config.js. -/
def getProviderFromModel (model : String) : String :=
  if strStartsWith model "gemini" || jsIncludes model "gemini" then "gemini"
  else if strStartsWith model "gpt" then "openai"
  else "ollama"

/-- The three provider adapters. -/
inductive Provider where
  | gemini
  | openai
  | ollama
deriving DecidableEq

/-- The switch of the /api/chat route over the provider tag; none embeds
its default branch (throw Unknown provider). -/
def dispatchProvider : String → Option Provider
  | "gemini" => some Provider.gemini
  | "openai" => some Provider.openai
  | "ollama" => some Provider.ollama
  | _ => none

/-! ### Prompt construction per adapter -/

/-- One transcript line of formatPrompt; roles other than user and
assistant contribute nothing. -/
def transcriptLine (m : Msg) : String :=
  if m.role = "user" then "User: " ++ m.content ++ "\n"
  else if m.role = "assistant" then "Assistant: " ++ m.content ++ "\n"
  else ""

/-- formatPrompt of cors-config.js: persona-enhanced message, the last six
history entries as a role-tagged transcript, then the live turn. -/
def formatPrompt (draw : Bool) (message : String) (history : List Msg) : String :=
  let prompt := enhancePrompt draw message ++ "\n\n"
  let recentHistory := jsSliceNeg 6 history
  let prompt := recentHistory.foldl (fun p m => p ++ transcriptLine m) prompt
  prompt ++ "User: " ++ message ++ "\nAssistant: "

/-- The message list handleOpenAIChat posts: a system persona message, the
whole history, and the live turn. -/
def openAIMessages (draw : Bool) (message : String) (history : List Msg) :
    List Msg :=
  ⟨"system", enhancePrompt draw message⟩ ::
    (history.map (fun m => ⟨m.role, m.content⟩) ++ [⟨"user", message⟩])

/-- One transcript line of the Gemini prompt. -/
def geminiHistoryLine (m : Msg) : String :=
  if m.role = "user" then "ユーザー: " ++ m.content ++ "\n"
  else if m.role = "assistant" then "アシスタント: " ++ m.content ++ "\n"
  else ""

/-- The full prompt handleGeminiChat sends: persona-enhanced message, the
last ten history entries when any, then the live turn. -/
def geminiFullPrompt (draw : Bool) (message : String) (history : List Msg) :
    String :=
  let fullPrompt := enhancePrompt draw message
  let recentHistory := jsSliceNeg 10 history
  let fullPrompt :=
    if recentHistory.isEmpty then fullPrompt
    else
      (recentHistory.foldl (fun p m => p ++ geminiHistoryLine m)
        (fullPrompt ++ "以下は最近の会話履歴です：\n")) ++ "\n"
  fullPrompt ++ "ユーザー: " ++ message ++ "\nアシスタント: "

/-! ### Backend stream decoding -/

/-- One newline-delimited line of the Ollama backend stream, embedded as
the outcome of JSON.parse: a parse failure, or an object carrying the
response field (empty embeds absent or empty, both falsy) and the done
flag. -/
inductive OllamaLine where
  | malformed
  | obj (response : String) (done : Bool)
deriving DecidableEq

/-- Whether an Ollama line is a parse failure. -/
def OllamaLine.isMalformed : OllamaLine → Bool
  | .malformed => true
  | .obj _ _ => false

/-- The data callback of handleOllamaChat for one chunk: the try block
walks the lines; a parse failure throws, so the catch skips the remaining
lines of this chunk. -/
def ollamaChunk : Res → List OllamaLine → Res
  | r, [] => r
  | r, OllamaLine.malformed :: _ => r
  | r, OllamaLine.obj response done :: rest =>
    let r1 := if response != "" then r.write (Frame.content response) else r
    let r2 := if done then (r1.write Frame.done).close else r1
    ollamaChunk r2 rest

/-- The whole Ollama backend stream: the chunk callback over every chunk. -/
def ollamaStream (chunks : List (List OllamaLine)) (r : Res) : Res :=
  chunks.foldl ollamaChunk r

/-- Whether a chunk reaches a done line before any parse failure. -/
def ollamaChunkDone : List OllamaLine → Bool
  | [] => false
  | OllamaLine.malformed :: _ => false
  | OllamaLine.obj _ done :: rest => done || ollamaChunkDone rest

/-- One line of the OpenAI server-sent-event stream, embedded as what the
handler extracts from it: a line without the data prefix, the literal
terminal marker, a payload JSON.parse rejects, or a parsed delta whose
content is the extracted choices field (empty embeds absent, falsy). -/
inductive SSELine where
  | notData
  | doneMarker
  | malformed
  | delta (content : String)
deriving DecidableEq

/-- Whether an SSE line is a parse failure. -/
def SSELine.isMalformed : SSELine → Bool
  | .malformed => true
  | _ => false

/-- Whether an SSE line is the literal terminal marker. -/
def SSELine.isDone : SSELine → Bool
  | .doneMarker => true
  | _ => false

/-- The per-line step of handleOpenAIChat: the terminal marker writes the
done frame and ends the response; a parse failure is logged and skipped on
its own; a non-empty content delta is forwarded. -/
def openAILineStep (r : Res) : SSELine → Res
  | SSELine.notData => r
  | SSELine.doneMarker => (r.write Frame.done).close
  | SSELine.malformed => r
  | SSELine.delta content =>
    if content != "" then r.write (Frame.content content) else r

/-- The data callback of handleOpenAIChat for one chunk. -/
def openAIChunk (r : Res) (chunk : List SSELine) : Res :=
  chunk.foldl openAILineStep r

/-- The whole OpenAI backend stream. -/
def openAIStream (chunks : List (List SSELine)) (r : Res) : Res :=
  chunks.foldl openAIChunk r

/-! ### The three provider handlers -/

/-- handleOllamaChat: build the prompt with formatPrompt, post it (post is
the outcome of the axios call: a thrown transport failure, or the response
chunk stream), and decode the stream.  The returned pair carries the final
response state and the posted prompt. -/
def handleOllamaChat (draw : Bool) (message : String) (history : List Msg)
    (post : Except String (List (List OllamaLine))) (r : Res) :
    Except String (Res × String) :=
  let prompt := formatPrompt draw message history
  match post with
  | Except.error e => Except.error e
  | Except.ok chunks => Except.ok (ollamaStream chunks r, prompt)

/-- handleOpenAIChat: throw before any backend call when the key is
missing; otherwise build the message list, post it and decode the
server-sent-event stream. -/
def handleOpenAIChat (hasKey : Bool) (draw : Bool) (message : String)
    (history : List Msg) (post : Except String (List (List SSELine)))
    (r : Res) : Except String (Res × List Msg) :=
  if hasKey = false then Except.error "OpenAI API key not configured"
  else
    let messages := openAIMessages draw message history
    match post with
    | Except.error e => Except.error e
    | Except.ok chunks => Except.ok (openAIStream chunks r, messages)

/-- handleGeminiChat: throw (to the route catch) when genAI is not
configured; otherwise one non-streamed call: on success write the persona
post-processed text as one content frame then the done frame and end; any
failure inside the try is caught locally and written as one error frame.
drawPrompt and drawResponse are the prompt-phase and response-phase persona
draws. -/
def handleGeminiChat (configured : Bool) (drawPrompt drawResponse : Bool)
    (message : String) (history : List Msg)
    (apiResult : Except String String) (r : Res) :
    Except String (Res × String) :=
  if configured = false then Except.error "Gemini API key not configured"
  else
    let fullPrompt := geminiFullPrompt drawPrompt message history
    match apiResult with
    | Except.ok text =>
      let enhancedText := processResponse drawResponse message text
      Except.ok (((r.write (Frame.content enhancedText)).write Frame.done).close,
        fullPrompt)
    | Except.error e =>
      Except.ok ((r.write (Frame.error ("Gemini APIエラー: " ++ e))).close,
        fullPrompt)

/-! ### The /api/chat route -/

/-- The request body fields the pipeline reads. -/
structure ChatRequest where
  message : String
  model : String
  history : List Msg
  files : List FileAtt
  useKnowledge : Bool
  userProfile : Option UserProfile

/-- The ambient environment of one turn: the two persona random draws, the
knowledge collaborator behaviour, the configured credentials, and each
backend call outcome. -/
structure ChatEnv where
  drawPrompt : Bool
  drawResponse : Bool
  kb : Except String (Option String)
  genAIConfigured : Bool
  openAIKeyConfigured : Bool
  geminiResult : Except String String
  openaiPost : Except String (List (List SSELine))
  ollamaPost : Except String (List (List OllamaLine))

/-- What one turn produced: the final response state, whether the knowledge
collaborator was invoked, and whether a backend request was issued. -/
structure TurnResult where
  res : Res
  knowledgeInvoked : Bool
  backendCalled : Bool

/-- The provider switch of the route together with the route-level catch:
an augmented message or a thrown augmentation failure goes in, the response
state and the backend-call flag come out. -/
def runChatCore (aug : Except String String) (model : String)
    (history : List Msg) (env : ChatEnv) : Res × Bool :=
  match aug with
  | Except.error e => (routeCatch e, false)
  | Except.ok enhanced =>
    match dispatchProvider (getProviderFromModel model) with
    | some Provider.gemini =>
      match handleGeminiChat env.genAIConfigured env.drawPrompt
          env.drawResponse enhanced history env.geminiResult Res.init with
      | Except.ok rp => (rp.1, env.genAIConfigured)
      | Except.error e => (routeCatch e, false)
    | some Provider.openai =>
      match handleOpenAIChat env.openAIKeyConfigured env.drawPrompt enhanced
          history env.openaiPost Res.init with
      | Except.ok rp => (rp.1, true)
      | Except.error e => (routeCatch e, env.openAIKeyConfigured)
    | some Provider.ollama =>
      match handleOllamaChat env.drawPrompt enhanced history env.ollamaPost
          Res.init with
      | Except.ok rp => (rp.1, true)
      | Except.error e => (routeCatch e, true)
    | none => (routeCatch "Unknown provider", false)

/-- One whole /api/chat turn. -/
def runChat (req : ChatRequest) (env : ChatEnv) : TurnResult :=
  let core := runChatCore
    (chatAugment req.message req.files req.useKnowledge env.kb req.userProfile)
    req.model req.history env
  ⟨core.1, req.useKnowledge, core.2⟩

/-- The augmentation outcome of a turn. -/
def augmentOf (req : ChatRequest) (env : ChatEnv) : Except String String :=
  chatAugment req.message req.files req.useKnowledge env.kb req.userProfile

/-- The provider tag of a turn. -/
def providerOf (req : ChatRequest) : String :=
  getProviderFromModel req.model

/-- Whether an augmentation outcome is a success. -/
def isOkE (e : Except String String) : Bool :=
  match e with
  | Except.ok _ => true
  | Except.error _ => false

/-- The response-state invariant every handler maintains: before res.end no
terminal frame has been written; after res.end the frames are a terminal
frame at the very end after non-terminal frames only. -/
def ResOk (r : Res) : Prop :=
  (r.ended = false → noTerminal r.frames = true) ∧
  (r.ended = true →
    ∃ l f, r.frames = l ++ [f] ∧ f.isTerminal = true ∧ noTerminal l = true)

/-! ### Statement abbreviations and concrete turns used by the claims -/

/-- The terminal-protocol facts of one turn: a terminal frame only at the
end; the terminal count is one exactly when the response was ended; the
Gemini path always ends the response; the Ollama and OpenAI paths end it
exactly when the backend stream reaches its terminal marker. -/
def c1Concl (req : ChatRequest) (env : ChatEnv) : Prop :=
  terminalOnlyLast (runChat req env).res.frames = true ∧
  terminalCount (runChat req env).res.frames = (runChat req env).res.ended.toNat ∧
  (providerOf req = "gemini" → (runChat req env).res.ended = true) ∧
  (∀ m chunks, augmentOf req env = Except.ok m → providerOf req = "ollama" →
    env.ollamaPost = Except.ok chunks →
    (runChat req env).res.ended = chunks.any ollamaChunkDone) ∧
  (∀ m chunks, augmentOf req env = Except.ok m → providerOf req = "openai" →
    env.openAIKeyConfigured = true → env.openaiPost = Except.ok chunks →
    (runChat req env).res.ended = chunks.any (fun c => c.any SSELine.isDone))

/-- An Ollama turn whose backend stream delivers one content line and then
closes without ever sending a done line. -/
def reqC1 : ChatRequest := ⟨"hi", "llama2", [], [], false, none⟩

/-- Environment for reqC1: the Ollama backend stream has no done line. -/
def envC1 : ChatEnv :=
  ⟨false, false, Except.ok none, false, false, Except.ok "",
    Except.ok [], Except.ok [[OllamaLine.obj "hi" false]]⟩

/-- An Ollama turn whose backend stream does reach its done line. -/
def reqC1W : ChatRequest := ⟨"hi", "llama2", [], [], false, none⟩

/-- Environment for reqC1W: one content line, then a done line. -/
def envC1W : ChatEnv :=
  ⟨false, false, Except.ok none, false, false, Except.ok "",
    Except.ok [], Except.ok [[OllamaLine.obj "hi" false], [OllamaLine.obj "" true]]⟩

/-- The history-windowing facts of one turn: the local prompt carries
exactly the transcript of the slice(-6) suffix of the history, and the
OpenAI message list carries the whole history between its system and user
messages. -/
def c2Concl (draw : Bool) (message : String) (history : List Msg) : Prop :=
  (formatPrompt draw message history =
    enhancePrompt draw message ++ "\n\n" ++
      concatMap transcriptLine (jsSliceNeg 6 history) ++
      ("User: " ++ message ++ "\nAssistant: ")) ∧
  (jsSliceNeg 6 history).length = 6 ∧
  jsSliceNeg 6 history <:+ history ∧
  ((openAIMessages draw message history).drop 1).dropLast = history ∧
  (openAIMessages draw message history).length = history.length + 2

/-- A twenty-entry history, as in the spec scenario. -/
def history20 : List Msg :=
  (List.range 20).map (fun i => ⟨"user", "h" ++ toString i⟩)

/-- A knowledge turn whose retrieval collaborator throws. -/
def reqC3 : ChatRequest := ⟨"hello", "llama2", [], [], true, none⟩

/-- Environment for reqC3: the knowledge collaborator throws kb down. -/
def envC3 : ChatEnv :=
  ⟨false, false, Except.error "kb down", false, false, Except.ok "",
    Except.ok [], Except.ok []⟩

/-- A second knowledge turn whose retrieval collaborator throws. -/
def reqC3W : ChatRequest := ⟨"hello", "llama2", [], [], true, none⟩

/-- Environment for reqC3W: the knowledge collaborator throws kb offline. -/
def envC3W : ChatEnv :=
  ⟨false, false, Except.error "kb offline", false, false, Except.ok "",
    Except.ok [], Except.ok []⟩

/-- The augmentation-order facts of one turn with a text attachment, a
knowledge context and a profile: the profile line is prepended directly
before the live turn text, the attachment context follows the live text,
the knowledge context comes last, and the whole block is what the local
prompt carries as its final User line. -/
def c4Concl (draw : Bool) (message kc : String) (files : List FileAtt)
    (p : UserProfile) (history : List Msg) : Prop :=
  chatAugment message files true (Except.ok (some kc)) (some p) =
    Except.ok (profileLine p ++ (message ++ filesContext files ++ kc)) ∧
  formatPrompt draw (profileLine p ++ (message ++ filesContext files ++ kc))
      history =
    enhancePrompt draw (profileLine p ++ (message ++ filesContext files ++ kc)) ++
      "\n\n" ++ concatMap transcriptLine (jsSliceNeg 6 history) ++
      ("User: " ++ (profileLine p ++ (message ++ filesContext files ++ kc)) ++
        "\nAssistant: ")

/-- A plain text attachment. -/
def c4file : FileAtt := ⟨"notes.txt", "text/plain", "hello", Except.ok ""⟩

/-- A profile with a non-blank context field. -/
def c4profile : UserProfile := ⟨"A", "B", "P"⟩

/-- The augmented message of the concrete ordering turn: message M, the
attachment above, knowledge context K, the profile above. -/
def c4E : String :=
  match chatAugment "M" [c4file] true (Except.ok (some "K")) (some c4profile) with
  | Except.ok s => s
  | Except.error e => e

/-- The missing-credential facts of an OpenAI turn without a key: exactly
one error frame naming the missing configuration, no backend call, no
content frame. -/
def c5Concl (req : ChatRequest) (env : ChatEnv) : Prop :=
  (runChat req env).res.frames = [Frame.error "OpenAI API key not configured"] ∧
  (runChat req env).backendCalled = false ∧
  terminalCount (runChat req env).res.frames = 1 ∧
  (∀ s, Frame.content s ∉ (runChat req env).res.frames)

/-- A gpt turn. -/
def reqC5 : ChatRequest := ⟨"hi", "gpt-4", [], [], false, none⟩

/-- Environment for reqC5: no OpenAI key configured. -/
def envC5 : ChatEnv :=
  ⟨false, false, Except.ok none, false, false, Except.ok "",
    Except.ok [], Except.ok []⟩

/-- The pdf-attachment facts of one file routed to the pdf branch: the
fragment is the named header, a body, and the footer; a non-empty
extraction gives the sanitized text truncated to 5000 characters with the
omitted marker exactly when longer; an empty extraction gives the fixed
image-only hint; a failed extraction gives the error fragment carrying the
failure reason; and file processing never makes the augmentation throw. -/
def c7Concl (f : FileAtt) : Prop :=
  fileFragment f = pdfHeader f.name ++ pdfTryBody f ++ pdfFooter ∧
  (∀ t, f.pdfResult = Except.ok t → 0 < t.length →
    pdfTryBody f = pdfSuccessBody (sanitizePdf t) ∧
    (strTake (sanitizePdf t) 5000).length ≤ 5000 ∧
    (5000 < (sanitizePdf t).length →
      pdfSuccessBody (sanitizePdf t) =
        "内容 (" ++ toString (sanitizePdf t).length ++ "文字):\n" ++
          strTake (sanitizePdf t) 5000 ++ "\n" ++
          omittedMarker ((sanitizePdf t).length - 5000))) ∧
  (f.pdfResult = Except.ok "" → pdfTryBody f = pdfImageOnlyHint) ∧
  (∀ e, f.pdfResult = Except.error e →
    pdfTryBody f = pdfErrorFragment ("PDF解析エラー: " ++ e)) ∧
  (∀ message files profile kb,
    isOkE (chatAugment message files false kb profile) = true)

/-- A pdf attachment with a well-formed data url and a successful
extraction. -/
def c7file : FileAtt :=
  ⟨"doc.pdf", "application/pdf", "data:application/pdf;base64,QUJD",
    Except.ok "abc"⟩

/-- The knowledge-skip facts of a turn with the flag off: the collaborator
is not invoked and the whole turn is independent of what the collaborator
would have done. -/
def c8Concl (req : ChatRequest) (env : ChatEnv)
    (kb2 : Except String (Option String)) : Prop :=
  (runChat req env).knowledgeInvoked = false ∧
  runChat req env = runChat req { env with kb := kb2 }

/-- A turn with the knowledge flag off. -/
def reqC8 : ChatRequest := ⟨"hi", "llama2", [], [], false, none⟩

/-- Environment for reqC8: a collaborator that would throw if consulted. -/
def envC8 : ChatEnv :=
  ⟨false, false, Except.error "kb down", false, false, Except.ok "",
    Except.ok [], Except.ok [[OllamaLine.obj "ok" true]]⟩

/-- A persona Gemini turn at the failing pair of draws: the prompt-phase
draw fell below 0.3 (suffix variant instructed) while the response-phase
draw did not (suffix omitted). -/
def reqC9 : ChatRequest := ⟨"質問", "gemini-1.5-pro", [], [], false, none⟩

/-- Environment for reqC9: prompt-phase draw true, response-phase draw
false, Gemini configured, backend reply 回答. -/
def envC9 : ChatEnv :=
  ⟨true, false, Except.ok none, true, false, Except.ok "回答",
    Except.ok [], Except.ok []⟩

/-! ### Helper lemmas: strings -/

theorem concatMap_nil (g : α → String) : concatMap g [] = "" := rfl

theorem foldl_concatMap (g : α → String) :
    ∀ (l : List α) (p : String),
      l.foldl (fun acc m => acc ++ g m) p = p ++ concatMap g l := by
  intro l
  induction l with
  | nil => intro p; simp [concatMap]
  | cons a t ih =>
    intro p
    simp only [List.foldl_cons, concatMap, ih, String.append_assoc]

/-! ### Helper lemmas: the response state machine -/

theorem write_ended (r : Res) (f : Frame) : (r.write f).ended = r.ended := by
  unfold Res.write
  split <;> rfl

theorem write_of_ended {r : Res} (h : r.ended = true) (f : Frame) :
    r.write f = r := by
  unfold Res.write
  simp [h]

theorem close_of_ended {r : Res} (h : r.ended = true) : r.close = r := by
  cases r
  simp_all [Res.close]

theorem write_frames_of_not_ended {r : Res} (h : r.ended = false) (f : Frame) :
    (r.write f).frames = r.frames ++ [f] := by
  unfold Res.write
  simp [h]

theorem noTerminal_append (l1 l2 : List Frame) :
    noTerminal (l1 ++ l2) = (noTerminal l1 && noTerminal l2) := by
  simp [noTerminal, List.all_append]

theorem terminalCount_append (l1 l2 : List Frame) :
    terminalCount (l1 ++ l2) = terminalCount l1 + terminalCount l2 := by
  simp [terminalCount, List.filter_append]

theorem terminalCount_of_noTerminal {l : List Frame}
    (h : noTerminal l = true) : terminalCount l = 0 := by
  simp only [terminalCount, List.length_eq_zero]
  rw [List.filter_eq_nil_iff]
  intro f hf
  have := (List.all_eq_true.mp h) f hf
  simp_all

theorem resOk_init : ResOk Res.init := by
  constructor
  · intro _; rfl
  · intro h; simp [Res.init] at h

theorem resOk_write_content {r : Res} (h : ResOk r) (s : String) :
    ResOk (r.write (Frame.content s)) := by
  obtain ⟨h1, h2⟩ := h
  cases hr : r.ended with
  | true => rw [write_of_ended hr]; exact ⟨h1, h2⟩
  | false =>
    constructor
    · intro _
      rw [write_frames_of_not_ended hr, noTerminal_append, h1 hr]
      simp [noTerminal, Frame.isTerminal]
    · intro hend
      rw [write_ended, hr] at hend
      simp at hend

theorem resOk_write_if_content {r : Res} (h : ResOk r) (b : Bool)
    (s : String) : ResOk (if b then r.write (Frame.content s) else r) := by
  cases b with
  | true => simpa using resOk_write_content h s
  | false => simpa using h

theorem resOk_terminal_close {r : Res} (h : ResOk r) {f : Frame}
    (hf : f.isTerminal = true) : ResOk ((r.write f).close) := by
  obtain ⟨h1, h2⟩ := h
  cases hr : r.ended with
  | true =>
    rw [write_of_ended hr, close_of_ended hr]
    exact ⟨h1, h2⟩
  | false =>
    constructor
    · intro hend; simp [Res.close] at hend
    · intro _
      refine ⟨r.frames, f, ?_, hf, h1 hr⟩
      simp [Res.close, write_frames_of_not_ended hr]

theorem close_ended (r : Res) : r.close.ended = true := rfl

theorem terminalCount_of_resOk {r : Res} (h : ResOk r) :
    terminalCount r.frames = r.ended.toNat := by
  obtain ⟨h1, h2⟩ := h
  cases hr : r.ended with
  | false => simp [terminalCount_of_noTerminal (h1 hr)]
  | true =>
    obtain ⟨l, f, hfr, hft, hnt⟩ := h2 hr
    rw [hfr, terminalCount_append, terminalCount_of_noTerminal hnt]
    simp [terminalCount, hft]

theorem terminalOnlyLast_of_resOk {r : Res} (h : ResOk r) :
    terminalOnlyLast r.frames = true := by
  obtain ⟨h1, h2⟩ := h
  cases hr : r.ended with
  | false =>
    have hn := h1 hr
    unfold terminalOnlyLast
    rw [noTerminal] at hn ⊢
    rw [List.all_eq_true] at hn ⊢
    intro f hf
    exact hn f (List.dropLast_subset _ hf)
  | true =>
    obtain ⟨l, f, hfr, _, hnt⟩ := h2 hr
    unfold terminalOnlyLast
    rw [hfr, List.dropLast_concat]
    exact hnt

theorem resOk_routeCatch (e : String) : ResOk (routeCatch e) :=
  resOk_terminal_close resOk_init rfl

theorem routeCatch_frames (e : String) :
    (routeCatch e).frames = [Frame.error e] := rfl

theorem routeCatch_ended (e : String) : (routeCatch e).ended = true := rfl

/-! ### Helper lemmas: the Ollama stream decoder -/

theorem ollamaChunk_of_ended {r : Res} (h : r.ended = true) :
    ∀ c : List OllamaLine, ollamaChunk r c = r := by
  intro c
  induction c with
  | nil => rfl
  | cons a t ih =>
    cases a with
    | malformed => rfl
    | obj response done =>
      have hw : (if (response != "") = true
          then r.write (Frame.content response) else r) = r := by
        split <;> simp [write_of_ended h]
      show ollamaChunk _ t = r
      rw [hw]
      have hd : (if done = true then (r.write Frame.done).close else r) = r := by
        split <;> simp [write_of_ended h, close_of_ended h]
      rw [hd]
      exact ih

theorem resOk_ollamaChunk {r : Res} (h : ResOk r) :
    ∀ c : List OllamaLine, ResOk (ollamaChunk r c) := by
  intro c
  induction c generalizing r with
  | nil => exact h
  | cons a t ih =>
    cases a with
    | malformed => exact h
    | obj response done =>
      show ResOk (ollamaChunk _ t)
      apply ih
      have h1 := resOk_write_if_content h (response != "") response
      cases done with
      | true => simpa using resOk_terminal_close h1 (f := Frame.done) rfl
      | false => simpa using h1

theorem ollamaChunk_ended {r : Res} (h : r.ended = false) :
    ∀ c : List OllamaLine, (ollamaChunk r c).ended = ollamaChunkDone c := by
  intro c
  induction c generalizing r with
  | nil => exact h
  | cons a t ih =>
    cases a with
    | malformed => exact h
    | obj response done =>
      have h1 : (if (response != "") = true
          then r.write (Frame.content response) else r).ended = false := by
        split
        · rw [write_ended]; exact h
        · exact h
      cases done with
      | true =>
        show (ollamaChunk (((if (response != "") = true
            then r.write (Frame.content response) else r).write
              Frame.done).close) t).ended = true
        rw [ollamaChunk_of_ended (close_ended _)]
        exact close_ended _
      | false =>
        show (ollamaChunk (if (response != "") = true
            then r.write (Frame.content response) else r) t).ended =
          ollamaChunkDone t
        exact ih h1

theorem ollamaStream_of_ended {r : Res} (h : r.ended = true)
    (chunks : List (List OllamaLine)) : ollamaStream chunks r = r := by
  induction chunks with
  | nil => rfl
  | cons c t ih =>
    show ollamaStream t (ollamaChunk r c) = r
    rw [ollamaChunk_of_ended h]
    exact ih

theorem resOk_ollamaStream {r : Res} (h : ResOk r)
    (chunks : List (List OllamaLine)) : ResOk (ollamaStream chunks r) := by
  induction chunks generalizing r with
  | nil => exact h
  | cons c t ih => exact ih (resOk_ollamaChunk h c)

theorem ollamaStream_ended {r : Res} (h : r.ended = false)
    (chunks : List (List OllamaLine)) :
    (ollamaStream chunks r).ended = chunks.any ollamaChunkDone := by
  induction chunks generalizing r with
  | nil => exact h
  | cons c t ih =>
    show (ollamaStream t (ollamaChunk r c)).ended = _
    cases hc : ollamaChunkDone c with
    | true =>
      have he : (ollamaChunk r c).ended = true := by
        rw [ollamaChunk_ended h, hc]
      rw [ollamaStream_of_ended he, he]
      simp [hc]
    | false =>
      have he : (ollamaChunk r c).ended = false := by
        rw [ollamaChunk_ended h, hc]
      rw [ih he]
      simp [hc]

theorem ollamaChunk_takeWhile (r : Res) :
    ∀ c : List OllamaLine,
      ollamaChunk r (c.takeWhile (fun l => !l.isMalformed)) = ollamaChunk r c := by
  intro c
  induction c generalizing r with
  | nil => rfl
  | cons a t ih =>
    cases a with
    | malformed => rfl
    | obj response done => exact ih _

theorem ollamaStream_takeWhile (r : Res) (chunks : List (List OllamaLine)) :
    ollamaStream (chunks.map (fun c => c.takeWhile (fun l => !l.isMalformed))) r =
      ollamaStream chunks r := by
  induction chunks generalizing r with
  | nil => rfl
  | cons c t ih =>
    show ollamaStream (t.map _) (ollamaChunk r (c.takeWhile _)) = _
    rw [ollamaChunk_takeWhile]
    exact ih _

/-! ### Helper lemmas: the OpenAI stream decoder -/

theorem openAILineStep_of_ended {r : Res} (h : r.ended = true)
    (l : SSELine) : openAILineStep r l = r := by
  cases l with
  | notData => rfl
  | doneMarker =>
    show (r.write Frame.done).close = r
    rw [write_of_ended h, close_of_ended h]
  | malformed => rfl
  | delta content =>
    show (if (content != "") = true
        then r.write (Frame.content content) else r) = r
    split <;> simp [write_of_ended h]

theorem openAIChunk_of_ended {r : Res} (h : r.ended = true)
    (c : List SSELine) : openAIChunk r c = r := by
  induction c with
  | nil => rfl
  | cons a t ih =>
    show openAIChunk (openAILineStep r a) t = r
    rw [openAILineStep_of_ended h]
    exact ih

theorem resOk_openAILineStep {r : Res} (h : ResOk r) (l : SSELine) :
    ResOk (openAILineStep r l) := by
  cases l with
  | notData => exact h
  | doneMarker => exact resOk_terminal_close h rfl
  | malformed => exact h
  | delta content => exact resOk_write_if_content h _ content

theorem resOk_openAIChunk {r : Res} (h : ResOk r) (c : List SSELine) :
    ResOk (openAIChunk r c) := by
  induction c generalizing r with
  | nil => exact h
  | cons a t ih => exact ih (resOk_openAILineStep h a)

theorem resOk_openAIStream {r : Res} (h : ResOk r)
    (chunks : List (List SSELine)) : ResOk (openAIStream chunks r) := by
  induction chunks generalizing r with
  | nil => exact h
  | cons c t ih => exact ih (resOk_openAIChunk h c)

theorem openAIChunk_ended {r : Res} (h : r.ended = false) :
    ∀ c : List SSELine, (openAIChunk r c).ended = c.any SSELine.isDone := by
  intro c
  induction c generalizing r with
  | nil => exact h
  | cons a t ih =>
    show (openAIChunk (openAILineStep r a) t).ended = _
    cases a with
    | notData => simpa [SSELine.isDone] using ih h
    | malformed => simpa [SSELine.isDone] using ih h
    | delta content =>
      have h1 : (openAILineStep r (SSELine.delta content)).ended = false := by
        show (if (content != "") = true
            then r.write (Frame.content content) else r).ended = false
        split
        · rw [write_ended]; exact h
        · exact h
      simpa [SSELine.isDone] using ih h1
    | doneMarker =>
      have h1 : (openAILineStep r SSELine.doneMarker).ended = true :=
        close_ended _
      rw [openAIChunk_of_ended h1]
      simp [h1, SSELine.isDone]

theorem openAIStream_of_ended {r : Res} (h : r.ended = true)
    (chunks : List (List SSELine)) : openAIStream chunks r = r := by
  induction chunks with
  | nil => rfl
  | cons c t ih =>
    show openAIStream t (openAIChunk r c) = r
    rw [openAIChunk_of_ended h]
    exact ih

theorem openAIStream_ended {r : Res} (h : r.ended = false)
    (chunks : List (List SSELine)) :
    (openAIStream chunks r).ended = chunks.any (fun c => c.any SSELine.isDone) := by
  induction chunks generalizing r with
  | nil => exact h
  | cons c t ih =>
    show (openAIStream t (openAIChunk r c)).ended = _
    cases hc : c.any SSELine.isDone with
    | true =>
      have he : (openAIChunk r c).ended = true := by rw [openAIChunk_ended h, hc]
      rw [openAIStream_of_ended he, he]
      simp [hc]
    | false =>
      have he : (openAIChunk r c).ended = false := by rw [openAIChunk_ended h, hc]
      rw [ih he]
      simp [hc]

theorem openAIChunk_filter (r : Res) :
    ∀ c : List SSELine,
      openAIChunk r (c.filter (fun l => !l.isMalformed)) = openAIChunk r c := by
  intro c
  induction c generalizing r with
  | nil => rfl
  | cons a t ih =>
    cases a with
    | malformed => exact ih r
    | notData => exact ih _
    | doneMarker => exact ih _
    | delta content => exact ih _

theorem openAIStream_filter (r : Res) (chunks : List (List SSELine)) :
    openAIStream (chunks.map (fun c => c.filter (fun l => !l.isMalformed))) r =
      openAIStream chunks r := by
  induction chunks generalizing r with
  | nil => rfl
  | cons c t ih =>
    show openAIStream (t.map _) (openAIChunk r (c.filter _)) = _
    rw [openAIChunk_filter]
    exact ih _

/-! ### Helper lemmas: the handlers and the route -/

theorem resOk_handleGeminiChat {configured d1 d2 : Bool} {message : String}
    {history : List Msg} {apiResult : Except String String} {r : Res}
    {rp : Res × String} (h : ResOk r)
    (heq : handleGeminiChat configured d1 d2 message history apiResult r =
      Except.ok rp) : ResOk rp.1 ∧ rp.1.ended = true := by
  unfold handleGeminiChat at heq
  split at heq
  · exact absurd heq (by simp)
  · cases apiResult with
    | ok text =>
      simp only [Except.ok.injEq] at heq
      subst heq
      exact ⟨resOk_terminal_close (resOk_write_content h _) rfl, rfl⟩
    | error e =>
      simp only [Except.ok.injEq] at heq
      subst heq
      exact ⟨resOk_terminal_close h rfl, rfl⟩

theorem resOk_handleOpenAIChat {hasKey d : Bool} {message : String}
    {history : List Msg} {post : Except String (List (List SSELine))}
    {r : Res} {rp : Res × List Msg} (h : ResOk r)
    (heq : handleOpenAIChat hasKey d message history post r = Except.ok rp) :
    ResOk rp.1 := by
  unfold handleOpenAIChat at heq
  split at heq
  · exact absurd heq (by simp)
  · cases post with
    | error e => exact absurd heq (by simp)
    | ok chunks =>
      simp only [Except.ok.injEq] at heq
      subst heq
      exact resOk_openAIStream h chunks

theorem resOk_handleOllamaChat {d : Bool} {message : String}
    {history : List Msg} {post : Except String (List (List OllamaLine))}
    {r : Res} {rp : Res × String} (h : ResOk r)
    (heq : handleOllamaChat d message history post r = Except.ok rp) :
    ResOk rp.1 := by
  unfold handleOllamaChat at heq
  cases post with
  | error e => exact absurd heq (by simp)
  | ok chunks =>
    simp only [Except.ok.injEq] at heq
    subst heq
    exact resOk_ollamaStream h chunks

theorem resOk_runChatCore (aug : Except String String) (model : String)
    (history : List Msg) (env : ChatEnv) :
    ResOk (runChatCore aug model history env).1 := by
  unfold runChatCore
  cases aug with
  | error e => exact resOk_routeCatch e
  | ok m =>
    dsimp only
    cases dispatchProvider (getProviderFromModel model) with
    | none => exact resOk_routeCatch _
    | some p =>
      cases p with
      | gemini =>
        dsimp only
        cases heq : handleGeminiChat env.genAIConfigured env.drawPrompt
            env.drawResponse m history env.geminiResult Res.init with
        | ok rp => exact (resOk_handleGeminiChat resOk_init heq).1
        | error e => exact resOk_routeCatch e
      | openai =>
        dsimp only
        cases heq : handleOpenAIChat env.openAIKeyConfigured env.drawPrompt m
            history env.openaiPost Res.init with
        | ok rp => exact resOk_handleOpenAIChat resOk_init heq
        | error e => exact resOk_routeCatch e
      | ollama =>
        dsimp only
        cases heq : handleOllamaChat env.drawPrompt m history env.ollamaPost
            Res.init with
        | ok rp => exact resOk_handleOllamaChat resOk_init heq
        | error e => exact resOk_routeCatch e

theorem runChat_res (req : ChatRequest) (env : ChatEnv) :
    (runChat req env).res =
      (runChatCore (augmentOf req env) req.model req.history env).1 := rfl

theorem runChat_called (req : ChatRequest) (env : ChatEnv) :
    (runChat req env).backendCalled =
      (runChatCore (augmentOf req env) req.model req.history env).2 := rfl

theorem runChat_resOk (req : ChatRequest) (env : ChatEnv) :
    ResOk (runChat req env).res :=
  resOk_runChatCore _ _ _ _

theorem runChatCore_gemini_ended {aug : Except String String} {model : String}
    {history : List Msg} {env : ChatEnv}
    (hp : getProviderFromModel model = "gemini") :
    (runChatCore aug model history env).1.ended = true := by
  cases aug with
  | error e => exact routeCatch_ended e
  | ok m =>
    have hd : dispatchProvider "gemini" = some Provider.gemini := by decide
    unfold runChatCore
    rw [hp, hd]
    dsimp only
    cases heq : handleGeminiChat env.genAIConfigured env.drawPrompt
        env.drawResponse m history env.geminiResult Res.init with
    | ok rp => exact (resOk_handleGeminiChat resOk_init heq).2
    | error e => exact routeCatch_ended e

theorem runChatCore_ollama {m model : String} {history : List Msg}
    {env : ChatEnv} {chunks : List (List OllamaLine)}
    (hp : getProviderFromModel model = "ollama")
    (hpost : env.ollamaPost = Except.ok chunks) :
    runChatCore (Except.ok m) model history env =
      (ollamaStream chunks Res.init, true) := by
  have hd : dispatchProvider "ollama" = some Provider.ollama := by decide
  unfold runChatCore
  rw [hp, hd]
  unfold handleOllamaChat
  rw [hpost]

theorem runChatCore_openai_ok {m model : String} {history : List Msg}
    {env : ChatEnv} {chunks : List (List SSELine)}
    (hp : getProviderFromModel model = "openai")
    (hkey : env.openAIKeyConfigured = true)
    (hpost : env.openaiPost = Except.ok chunks) :
    runChatCore (Except.ok m) model history env =
      (openAIStream chunks Res.init, true) := by
  have hd : dispatchProvider "openai" = some Provider.openai := by decide
  unfold runChatCore
  rw [hp, hd]
  unfold handleOpenAIChat
  rw [hkey, hpost]
  rfl

theorem runChatCore_openai_nokey {m model : String} {history : List Msg}
    {env : ChatEnv}
    (hp : getProviderFromModel model = "openai")
    (hkey : env.openAIKeyConfigured = false) :
    runChatCore (Except.ok m) model history env =
      (routeCatch "OpenAI API key not configured", false) := by
  have hd : dispatchProvider "openai" = some Provider.openai := by decide
  unfold runChatCore
  rw [hp, hd]
  unfold handleOpenAIChat
  rw [hkey]
  rfl

theorem runChatCore_kb_indep (aug : Except String String) (model : String)
    (history : List Msg) (env : ChatEnv)
    (kb2 : Except String (Option String)) :
    runChatCore aug model history env =
      runChatCore aug model history { env with kb := kb2 } := by
  obtain ⟨d1, d2, kb, g, o, gr, op, lp⟩ := env
  rfl

theorem formatPrompt_eq (draw : Bool) (message : String) (history : List Msg) :
    formatPrompt draw message history =
      enhancePrompt draw message ++ "\n\n" ++
        concatMap transcriptLine (jsSliceNeg 6 history) ++
        ("User: " ++ message ++ "\nAssistant: ") := by
  unfold formatPrompt
  dsimp only
  rw [foldl_concatMap]
  simp [String.append_assoc]

theorem chatAugment_full (message kc : String) (files : List FileAtt)
    (p : UserProfile) (hf : files ≠ [])
    (hb : ((p.context != "") && (jsTrim p.context != "")) = true) :
    chatAugment message files true (Except.ok (some kc)) (some p) =
      Except.ok (profileLine p ++ (message ++ filesContext files ++ kc)) := by
  cases files with
  | nil => exact absurd rfl hf
  | cons f fs =>
    show Except.ok
        (applyProfile (some p) ((message ++ filesContext (f :: fs)) ++ kc)) = _
    unfold applyProfile
    dsimp only
    rw [if_pos hb]

/-! ### The claims -/

/-- Claim C1, amended: every turn writes at most one terminal frame and no
frame after a terminal frame; the terminal count is one exactly when the
turn ended the response, which the Gemini path always does, while the
Ollama and OpenAI paths end it exactly when the backend stream reaches its
terminal marker (so a backend stream that closes without its marker yields
a turn with no terminal frame at all). -/
theorem c1 (req : ChatRequest) (env : ChatEnv) : c1Concl req env := by
  have hok := runChat_resOk req env
  refine ⟨terminalOnlyLast_of_resOk hok, terminalCount_of_resOk hok, ?_, ?_, ?_⟩
  · intro hp
    rw [runChat_res]
    exact runChatCore_gemini_ended hp
  · intro m chunks haug hp hpost
    rw [runChat_res, haug, runChatCore_ollama hp hpost]
    exact ollamaStream_ended rfl chunks
  · intro m chunks haug hp hkey hpost
    rw [runChat_res, haug, runChatCore_openai_ok hp hkey hpost]
    exact openAIStream_ended rfl chunks

/-- Witness for C1: an Ollama turn whose backend stream reaches its done
line has a well-placed terminal frame and terminal count one. -/
theorem c1_witness :
    terminalOnlyLast (runChat reqC1W envC1W).res.frames = true ∧
    terminalCount (runChat reqC1W envC1W).res.frames = 1 := by
  have h := c1 reqC1W envC1W
  refine ⟨h.1, ?_⟩
  have he := h.2.2.2.1 "hi"
    [[OllamaLine.obj "hi" false], [OllamaLine.obj "" true]] rfl rfl rfl
  rw [h.2.1, he]
  rfl

/-- Counterexample for C1 as stated: an Ollama turn whose backend stream
closes without a done line emits a content frame but no terminal frame, so
the outgoing sequence does not contain exactly one terminal event. -/
theorem c1_cex :
    terminalCount (runChat reqC1 envC1).res.frames ≠ 1 ∧
    (runChat reqC1 envC1).res.frames = [Frame.content "hi"] := by decide

/-- Claim C2, amended: for a history beyond the cap the local transcript
carries exactly the slice(-6) suffix of the history, of length six, in
original order; the OpenAI message list however carries the entire history
(not the last ten) between its system and final user messages. -/
theorem c2 (draw : Bool) (message : String) (history : List Msg)
    (h6 : 6 ≤ history.length) : c2Concl draw message history := by
  have hmap : history.map (fun m : Msg => (⟨m.role, m.content⟩ : Msg)) = history := by
    simp only [show (fun m : Msg => (⟨m.role, m.content⟩ : Msg)) = id from
      funext fun m => rfl, List.map_id]
  refine ⟨formatPrompt_eq draw message history, ?_, List.drop_suffix _ _, ?_, ?_⟩
  · unfold jsSliceNeg
    rw [List.length_drop]
    omega
  · unfold openAIMessages
    rw [hmap]
    simp [List.dropLast_concat]
  · unfold openAIMessages
    rw [hmap]
    simp

/-- Witness for C2: the twenty-entry history of the spec scenario. -/
theorem c2_witness : c2Concl false "m" history20 :=
  c2 false "m" history20 (by decide)

/-- Counterexample for C2 as stated: with twenty history entries the
OpenAI message list does not consist of the last ten entries; it carries
all twenty (twenty-two messages in total, not twelve). -/
theorem c2_cex :
    ((openAIMessages false "m" history20).drop 1).dropLast ≠
      jsSliceNeg 10 history20 ∧
    (openAIMessages false "m" history20).length ≠ 12 := by decide

/-- Claim C3, amended: a thrown knowledge-base retrieval failure does not
degrade silently; it propagates to the route catch, which surfaces it as
the terminal error frame of the turn with no backend call made.  Only an
empty retrieval result degrades to an omitted knowledge section: the turn
then behaves exactly like a turn with the knowledge flag off. -/
theorem c3 (req : ChatRequest) (env : ChatEnv) (e : String) :
    (req.useKnowledge = true → env.kb = Except.error e →
      (runChat req env).res = routeCatch e ∧
      (runChat req env).backendCalled = false) ∧
    (env.kb = Except.ok none →
      (runChat req env).res =
        (runChat ⟨req.message, req.model, req.history, req.files, false,
          req.userProfile⟩ env).res) := by
  constructor
  · intro h1 h2
    have ha : augmentOf req env = Except.error e := by
      unfold augmentOf chatAugment
      rw [h1, h2]
      rfl
    constructor
    · rw [runChat_res, ha]
      rfl
    · rw [runChat_called, ha]
      rfl
  · intro h
    have ha : augmentOf req env =
        augmentOf ⟨req.message, req.model, req.history, req.files, false,
          req.userProfile⟩ env := by
      unfold augmentOf chatAugment
      cases hu : req.useKnowledge
      · rfl
      · rw [h]
        rfl
    rw [runChat_res, runChat_res, ha]

/-- Witness for C3: a concrete knowledge turn whose collaborator throws is
aborted with that error frame and no backend call. -/
theorem c3_witness :
    (runChat reqC3W envC3W).res = routeCatch "kb offline" ∧
    (runChat reqC3W envC3W).backendCalled = false :=
  (c3 reqC3W envC3W "kb offline").1 rfl rfl

/-- Counterexample for C3 as stated: the knowledge failure kb down is
surfaced to the caller as an error frame and the turn is aborted before
any provider call, contradicting never surfaced and never aborts. -/
theorem c3_cex :
    (runChat reqC3 envC3).res.frames = [Frame.error "kb down"] ∧
    (runChat reqC3 envC3).backendCalled = false := by decide

/-- Claim C4, amended: the user-profile line does directly precede the
live turn text, but it is prepended to the front of the augmented block:
attachment-derived content follows the live text and the knowledge context
comes last, rather than preceding the profile line; the block then appears
as the final User line of the local prompt. -/
theorem c4 (draw : Bool) (message kc : String) (files : List FileAtt)
    (p : UserProfile) (history : List Msg) (hf : files ≠ [])
    (hc : p.context ≠ "") (ht : jsTrim p.context ≠ "") :
    c4Concl draw message kc files p history := by
  have hb : ((p.context != "") && (jsTrim p.context != "")) = true := by
    simp [hc, ht]
  exact ⟨chatAugment_full message kc files p hf hb, formatPrompt_eq draw _ history⟩

/-- Witness for C4: the concrete ordering turn. -/
theorem c4_witness : c4Concl false "M" "K" [c4file] c4profile [] :=
  c4 false "M" "K" [c4file] c4profile [] (List.cons_ne_nil _ _) (by decide)
    (by decide)

/-- Counterexample for C4 as stated: in the concrete ordering turn the
augmented block starts with the profile line immediately followed by the
live text M, and ends with the knowledge context K — so the knowledge and
attachment content do not precede the profile line, and the current turn
text is not last. -/
theorem c4_cex :
    strStartsWith c4E "ユーザー情報: A, B, P\n\nM" = true ∧
    strEndsWith c4E "M" = false ∧
    strEndsWith c4E "K" = true := by decide

/-- Claim C5, confirmed: a turn routed to the OpenAI adapter with no key
configured fails immediately: one error frame naming the missing
configuration, no content frame, and no backend call. -/
theorem c5 (req : ChatRequest) (env : ChatEnv) (m : String)
    (haug : augmentOf req env = Except.ok m)
    (hp : providerOf req = "openai")
    (hkey : env.openAIKeyConfigured = false) : c5Concl req env := by
  have hres : (runChat req env).res =
      routeCatch "OpenAI API key not configured" := by
    rw [runChat_res, haug, runChatCore_openai_nokey hp hkey]
  have hcall : (runChat req env).backendCalled = false := by
    rw [runChat_called, haug, runChatCore_openai_nokey hp hkey]
  refine ⟨by rw [hres]; rfl, hcall, by rw [hres]; rfl, ?_⟩
  intro s hs
  rw [hres, routeCatch_frames] at hs
  simp at hs

/-- Witness for C5: a concrete gpt-4 turn without a key. -/
theorem c5_witness : c5Concl reqC5 envC5 :=
  c5 reqC5 envC5 "hi" rfl rfl rfl

/-- Claim C6, amended: in the OpenAI adapter every malformed line is
skipped individually (the stream behaves exactly as if each malformed line
were deleted), while in the Ollama adapter the skip is per chunk: a
malformed line suppresses the remaining lines of its own chunk (the stream
behaves as if each chunk were truncated at its first malformed line);
later chunks are unaffected in both adapters, so a malformed line is never
fatal to the stream. -/
theorem c6 :
    (∀ (chunks : List (List SSELine)) (r : Res),
      openAIStream (chunks.map (fun c => c.filter (fun l => !l.isMalformed))) r =
        openAIStream chunks r) ∧
    (∀ (chunks : List (List OllamaLine)) (r : Res),
      ollamaStream (chunks.map (fun c => c.takeWhile (fun l => !l.isMalformed))) r =
        ollamaStream chunks r) :=
  ⟨fun chunks r => openAIStream_filter r chunks,
    fun chunks r => ollamaStream_takeWhile r chunks⟩

/-- Counterexample for C6 as stated: in the Ollama adapter a well-formed
line that follows a malformed line inside the same chunk is not converted
to its token delta (the same line alone is), so skipping is not per-line
there. -/
theorem c6_cex :
    Frame.content "hi" ∉
      (ollamaStream [[OllamaLine.malformed, OllamaLine.obj "hi" false]]
        Res.init).frames ∧
    (ollamaStream [[OllamaLine.obj "hi" false]] Res.init).frames =
      [Frame.content "hi"] := by decide

/-- Claim C7, confirmed: a pdf attachment yields a fragment framed by a
header naming the file and a footer; a successful non-empty extraction is
sanitized and truncated to at most 5000 characters with the omitted-count
marker exactly when longer; an empty extraction yields the fixed
image-only hint; a failed extraction yields the error fragment carrying
the failure reason; and attachment processing never makes the turn
augmentation throw. -/
theorem c7 (f : FileAtt) (hty : f.type = "application/pdf")
    (hmd : strEndsWith f.name ".md" = false)
    (htxt : strEndsWith f.name ".txt" = false)
    (hdata : strStartsWith f.data "data:" = true)
    (hb64 : base64Part f.data ≠ "") : c7Concl f := by
  have hbody0 : pdfTryBody f = (match f.pdfResult with
      | Except.error msg => pdfErrorFragment ("PDF解析エラー: " ++ msg)
      | Except.ok t =>
        if 0 < t.length then pdfSuccessBody (sanitizePdf t)
        else pdfImageOnlyHint) := by
    unfold pdfTryBody
    rw [if_pos hdata, if_neg hb64]
  refine ⟨?_, ?_, ?_, ?_, ?_⟩
  · unfold fileFragment
    rw [hty, hmd, htxt]
    rw [if_neg (by decide), if_neg (by decide), if_pos (by simp)]
  · intro t hres hlen
    refine ⟨?_, ?_, ?_⟩
    · rw [hbody0, hres]
      dsimp only
      rw [if_pos hlen]
    · show ((sanitizePdf t).data.take 5000).length ≤ 5000
      rw [List.length_take]
      exact Nat.min_le_left _ _
    · intro hgt
      unfold pdfSuccessBody
      rw [if_pos hgt]
  · intro hres
    rw [hbody0, hres]
    rfl
  · intro e hres
    rw [hbody0, hres]
  · intro message files profile kb
    rfl

/-- Witness for C7: a concrete pdf attachment with a well-formed data url
and a successful extraction. -/
theorem c7_witness : c7Concl c7file :=
  c7 c7file rfl (by decide) (by decide) (by decide) (by decide)

/-- Claim C8, confirmed: with the knowledge flag off the retrieval
collaborator is never invoked, and the whole turn is independent of what
the collaborator would have done. -/
theorem c8 (req : ChatRequest) (env : ChatEnv)
    (kb2 : Except String (Option String)) (h : req.useKnowledge = false) :
    c8Concl req env kb2 := by
  obtain ⟨d1, d2, kb, g, o, gr, op, lp⟩ := env
  constructor
  · exact h
  · unfold runChat
    rw [h]
    rfl

/-- Witness for C8: a concrete knowledge-off turn is unchanged when the
collaborator is replaced by a throwing one. -/
theorem c8_witness : c8Concl reqC8 envC8 (Except.error "other") :=
  c8 reqC8 envC8 (Except.error "other") rfl

/-- Claim C9: at the failing pair of independent draws (prompt phase below
0.3, response phase above) the Gemini turn sends a prompt whose preamble
instructs the suffix variant, yet emits the backend reply unchanged,
without the suffix — the two phases disagree because the draws are made
independently, not shared. -/
theorem c9 :
    (runChat reqC9 envC9).res.frames = [Frame.content "回答", Frame.done] ∧
    jsIncludes (geminiFullPrompt true "質問" []) aiyuSuffixDirective = true ∧
    strEndsWith "回答" "ワン" = false ∧
    processResponse true "質問" "回答" = "回答ワン" := by decide

/-- Claim C10, confirmed: getProviderFromModel resolves every model string
to one of the three provider tags with ollama as the catch-all, so the
provider switch always dispatches and its unknown-provider default branch
is unreachable. -/
theorem c10 (model : String) :
    (getProviderFromModel model = "gemini" ∨
      getProviderFromModel model = "openai" ∨
      getProviderFromModel model = "ollama") ∧
    (dispatchProvider (getProviderFromModel model)).isSome = true := by
  unfold getProviderFromModel
  split
  · exact ⟨Or.inl rfl, by decide⟩
  · split
    · exact ⟨Or.inr (Or.inl rfl), by decide⟩
    · exact ⟨Or.inr (Or.inr rfl), by decide⟩

end ChatRelay
